import Mathlib

/-!
Verification of the function-calling tool registry
(`agent_tool_manager.py`): tool registration via the `agent_tool`
decorator, automatic parameter-model synthesis from type hints
(`_create_model_from_type_hints`), schema export (`generate_tools` /
`AgentTool.to_tool`), invocation dispatch (`call_tool`) and registry
merging (`merge_tools`).

The embedding is shallow: Python values exchanged over the JSON wire are
modelled by `JValue`; pydantic model classes are modelled by `Ty.model`
carrying the class name and its field specifications; Python functions
registered as tools are modelled by `FuncDecl`, whose semantic body maps
the call arguments chosen by the dispatcher to either a result value or
an exception message. Exceptions are modelled with `Except`; an
operation that mutates the manager returns the post-state explicitly so
that statements about "the registry is unchanged" are theorems rather
than modelling assumptions.
-/

/-- JSON values, the wire representation of tool arguments and results
(`json.loads` / `json.dumps` payloads). Numbers are modelled as integers:
every numeric payload appearing in the repository is integral. -/
inductive JValue : Type where
  | null : JValue
  | bool (b : Bool) : JValue
  | num (n : Int) : JValue
  | str (s : String) : JValue
  | arr (xs : List JValue) : JValue
  | obj (kvs : List (String × JValue)) : JValue

/-- JSON string escaping as performed by `json.dumps` (with
`ensure_ascii=False`, so non-ASCII characters pass through verbatim). -/
def jsonEscapeChar (c : Char) : String :=
  if c = '"' then "\\\""
  else if c = '\\' then "\\\\"
  else if c = '\n' then "\\n"
  else if c = '\t' then "\\t"
  else if c = '\r' then "\\r"
  else String.singleton c

/-- Escape every character of a string for JSON output. -/
def jsonEscape (s : String) : String :=
  String.join (s.toList.map jsonEscapeChar)

mutual

/-- `json.dumps(v, ensure_ascii=False)`: serialize a JSON value to its
textual form (default separators: comma-space and colon-space). -/
def jsonDumps : JValue → String
  | JValue.null => "null"
  | JValue.bool b => if b then "true" else "false"
  | JValue.num n => toString n
  | JValue.str s => "\"" ++ jsonEscape s ++ "\""
  | JValue.arr xs => "[" ++ jsonDumpsList xs ++ "]"
  | JValue.obj kvs => "\x7b" ++ jsonDumpsObj kvs ++ "\x7d"

/-- Serialize the comma-separated elements of a JSON array. -/
def jsonDumpsList : List JValue → String
  | [] => ""
  | [v] => jsonDumps v
  | v :: rest => jsonDumps v ++ ", " ++ jsonDumpsList rest

/-- Serialize the comma-separated members of a JSON object. -/
def jsonDumpsObj : List (String × JValue) → String
  | [] => ""
  | [(k, v)] => "\"" ++ jsonEscape k ++ "\": " ++ jsonDumps v
  | (k, v) :: rest =>
      "\"" ++ jsonEscape k ++ "\": " ++ jsonDumps v ++ ", " ++ jsonDumpsObj rest

end

mutual

/-- Structural equality test on JSON values (Python `==` on the
corresponding parsed values). -/
def jvBeq : JValue → JValue → Bool
  | JValue.null, JValue.null => true
  | JValue.bool a, JValue.bool b => a == b
  | JValue.num a, JValue.num b => a == b
  | JValue.str a, JValue.str b => a == b
  | JValue.arr xs, JValue.arr ys => jvListBeq xs ys
  | JValue.obj xs, JValue.obj ys => jvObjBeq xs ys
  | _, _ => false

/-- Elementwise equality of JSON arrays. -/
def jvListBeq : List JValue → List JValue → Bool
  | [], [] => true
  | x :: xs, y :: ys => jvBeq x y && jvListBeq xs ys
  | _, _ => false

/-- Memberwise equality of JSON objects. -/
def jvObjBeq : List (String × JValue) → List (String × JValue) → Bool
  | [], [] => true
  | (k, v) :: xs, (k2, v2) :: ys => k == k2 && jvBeq v v2 && jvObjBeq xs ys
  | _, _ => false

end

/-- Primitive field annotations accepted by the auto-synthesis path
(`int`, `str`, `bool`, `float` in the Python source). -/
inductive PTy : Type where
  | pInt : PTy
  | pStr : PTy
  | pBool : PTy
  | pFloat : PTy
deriving DecidableEq

/-- Field metadata recorded by pydantic for each model field: the default
value when the field is optional, and the human-readable description.
A field is required exactly when it has no default, matching the two
forms the synthesiser emits (`(type, default)` versus
`(type, Field(..., description=...))`). -/
structure FieldMeta : Type where
  default : Option JValue
  descr : Option String

/-- A Python type expression usable as a parameter annotation and as a
pydantic field type: either a primitive or a pydantic model class, the
latter carrying its class name and its ordered field specifications
(field name, field type, metadata). Class equality, which Python decides
by object identity, is modelled structurally. -/
inductive Ty : Type where
  | prim (p : PTy) : Ty
  | model (name : String) (fields : List (String × Ty × FieldMeta)) : Ty

/-- Equality of field metadata (defaults compared as JSON values). -/
def fieldMetaBeq (a b : FieldMeta) : Bool :=
  (match a.default, b.default with
   | none, none => true
   | some x, some y => jvBeq x y
   | _, _ => false) &&
  (a.descr == b.descr)

mutual

/-- Equality test between type expressions, modelling the Python
comparison `param.annotation == InputClass`. -/
def tyBeq : Ty → Ty → Bool
  | Ty.prim a, Ty.prim b => a == b
  | Ty.model n fs, Ty.model n2 fs2 => n == n2 && tyFieldsBeq fs fs2
  | _, _ => false

/-- Equality of two ordered field-specification lists. -/
def tyFieldsBeq : List (String × Ty × FieldMeta) → List (String × Ty × FieldMeta) → Bool
  | [], [] => true
  | (n, t, m) :: xs, (n2, t2, m2) :: ys =>
      n == n2 && tyBeq t t2 && fieldMetaBeq m m2 && tyFieldsBeq xs ys
  | _, _ => false

end

/-- Lookup of a key in a JSON object / keyword-argument dictionary. -/
def lookupJ (kvs : List (String × JValue)) (k : String) : Option JValue :=
  (kvs.find? (fun kv => kv.1 == k)).map (fun kv => kv.2)

/-- Pydantic structural-validation failures raised by
`InputClass(**arguments)`: a missing required field, or a value that does
not fit the declared field type. The pydantic collaborator additionally
aggregates several failures and records nested locations; here the first
offending top-level field is reported, which is all the dispatch layer
ever depends on. -/
inductive ValErr : Type where
  | missingField (name : String) : ValErr
  | wrongType (name : String) : ValErr
deriving DecidableEq

mutual

/-- Typecheck and convert one JSON value against a field type, as the
pydantic collaborator does in strict structural mode: primitives must
match their JSON counterpart, and a model-typed field recursively
validates a JSON object against the nested model (returning the
validated, default-completed object as `model_dump` would render it).
`none` signals a validation failure inside the value. -/
def validateValue : Ty → JValue → Option JValue
  | Ty.prim PTy.pInt, JValue.num n => some (JValue.num n)
  | Ty.prim PTy.pFloat, JValue.num n => some (JValue.num n)
  | Ty.prim PTy.pStr, JValue.str s => some (JValue.str s)
  | Ty.prim PTy.pBool, JValue.bool b => some (JValue.bool b)
  | Ty.model _ fs, JValue.obj kvs =>
      match validateFields fs kvs with
      | Except.ok vals => some (JValue.obj vals)
      | Except.error _ => none
  | _, _ => none

/-- Validate a payload object against an ordered field-specification
list: a present field is typechecked, an absent field falls back to its
default and is a `missingField` failure when it has none; extra payload
keys are ignored (pydantic default configuration). The result lists the
validated values in model-field order, defaults included, exactly the
dictionary `model_dump()` produces. -/
def validateFields :
    List (String × Ty × FieldMeta) → List (String × JValue) →
    Except ValErr (List (String × JValue))
  | [], _ => Except.ok []
  | (n, t, m) :: rest, kvs =>
      match lookupJ kvs n with
      | some v =>
          match validateValue t v with
          | some v2 =>
              match validateFields rest kvs with
              | Except.ok vals => Except.ok ((n, v2) :: vals)
              | Except.error e => Except.error e
          | none => Except.error (ValErr.wrongType n)
      | none =>
          match m.default with
          | some d =>
              match validateFields rest kvs with
              | Except.ok vals => Except.ok ((n, d) :: vals)
              | Except.error e => Except.error e
          | none => Except.error (ValErr.missingField n)

end

/-- One declared parameter of a registered Python function, as exposed by
`inspect.signature` and `get_type_hints`: its name, its type annotation
when present (`ann = none` models a parameter without annotation, for
which `type_hints.get(param_name)` is `None` and `param.annotation` is
`inspect.Parameter.empty`), and its declared default value when any
(`param.default` versus `inspect.Parameter.empty`). -/
structure Param : Type where
  name : String
  ann : Option Ty
  default : Option JValue

/-- A validated pydantic model instance: its class and the validated
field values in model-field order; `model_dump()` returns exactly
`values`. -/
structure ModelInstance : Type where
  klass : Ty
  values : List (String × JValue)

/-- The two calling conventions `call_tool` uses to invoke the tool
function: the whole validated model instance as the single positional
argument (`func(tool_args)`), or the validated fields unpacked as
keyword arguments (`func(**tool_args.model_dump())`). -/
inductive CallArgs : Type where
  | packed (inst : ModelInstance) : CallArgs
  | unpacked (kwargs : List (String × JValue)) : CallArgs

/-- A Python function offered for registration: its `__name__`, its
`__doc__`, its declared parameters in order, and its semantic body. The
body maps the arguments the dispatcher passes to either a JSON-able
return value or, modelling a raised exception, the message `str(e)`. -/
structure FuncDecl : Type where
  name : String
  doc : Option String
  params : List Param
  body : CallArgs → Except String JValue

/-- A registered tool (`AgentTool`): the callable plus its resolved
input-model class. -/
structure AgentTool : Type where
  func : FuncDecl
  InputClass : Ty

/-- The registry state (`AgentToolManager.__init__`): the ordered list of
registered names and the name-to-tool mapping. Python dictionaries
preserve insertion order; the mapping is modelled as an association list
in that order. -/
structure AgentToolManager : Type where
  tool_name_list : List String
  tool_map : List (String × AgentTool)

/-- The empty registry produced by `AgentToolManager()`. -/
def emptyManager : AgentToolManager := ⟨[], []⟩

/-- Dictionary lookup `self.tool_map[tool_name]`. -/
def lookupTool (mgr : AgentToolManager) (n : String) : Option AgentTool :=
  (mgr.tool_map.find? (fun kv => kv.1 == n)).map (fun kv => kv.2)

/-- Registration-time errors, each a `ValueError` raise site of
`agent_tool` / `_create_model_from_type_hints`:
`nameConflict` for a duplicate tool name; `missingAnnotation` for the
inner raise when a parameter has no type hint; `modelSynthesis` for the
wrapping raise of the catch-all handler around model synthesis, carrying
the exception it caught and the name of the offending function;
`cannotDetermineInputModel` for an explicit `InputClass` argument that is
neither `None` nor a `BaseModel` subclass. -/
inductive RegErr : Type where
  | nameConflict (name : String) : RegErr
  | missingAnnotation (param : String) : RegErr
  | modelSynthesis (inner : RegErr) (funcName : String) : RegErr
  | cannotDetermineInputModel : RegErr
deriving DecidableEq

/-- The field-dictionary construction loop of
`_create_model_from_type_hints`: walk the parameters in declaration
order, fail on the first one without a type annotation, and otherwise
emit `(type, default)` for a defaulted parameter and
`(type, Field(..., description="参数 <name>"))` for a required one. -/
def buildFields : List Param → Except RegErr (List (String × Ty × FieldMeta))
  | [] => Except.ok []
  | p :: rest =>
      match p.ann with
      | none => Except.error (RegErr.missingAnnotation p.name)
      | some t =>
          let meta : FieldMeta :=
            match p.default with
            | some d => ⟨some d, none⟩
            | none => ⟨none, some ("参数 " ++ p.name)⟩
          match buildFields rest with
          | Except.ok fs => Except.ok ((p.name, t, meta) :: fs)
          | Except.error e => Except.error e

/-- `_create_model_from_type_hints(func, model_name)`: synthesize a
pydantic model named `model_name ++ "_Params"` from the parameter
annotations; any exception raised while doing so is caught and re-raised
wrapped as a model-synthesis error naming the function. -/
def createModelFromTypeHints (f : FuncDecl) (modelName : String) :
    Except RegErr Ty :=
  match buildFields f.params with
  | Except.ok fs => Except.ok (Ty.model (modelName ++ "_Params") fs)
  | Except.error e => Except.error (RegErr.modelSynthesis e f.name)

/-- The explicit `InputClass` argument of the `agent_tool` decorator,
typed `Type[BaseModel] | str | None` in the source: absent, a pydantic
model class, or a string naming a class (the third documented usage). -/
inductive InputClassArg : Type where
  | noneArg : InputClassArg
  | classArg (name : String) (fields : List (String × Ty × FieldMeta)) : InputClassArg
  | strArg (s : String) : InputClassArg

/-- The outcome of applying the `agent_tool` decorator to a function:
whether it raised or returned, and the registry state afterwards (the
decorator itself returns the original function unchanged). -/
structure RegOutcome : Type where
  result : Except RegErr Unit
  state : AgentToolManager

/-- The `agent_tool` decorator body: raise on a name conflict; resolve
the input model (the explicit class when one is supplied, the
synthesized model when the argument is absent, and nothing for any other
argument such as a string); raise when no model could be determined;
otherwise store the tool in the mapping and append its name to the
ordered list. All raise sites precede the two mutations, so on every
error the returned state is the input state. -/
def agentToolDec (mgr : AgentToolManager) (ic : InputClassArg)
    (f : FuncDecl) : RegOutcome :=
  if f.name ∈ mgr.tool_name_list then
    ⟨Except.error (RegErr.nameConflict f.name), mgr⟩
  else
    let resolved : Except RegErr (Option Ty) :=
      match ic with
      | InputClassArg.classArg n fs => Except.ok (some (Ty.model n fs))
      | InputClassArg.noneArg =>
          match createModelFromTypeHints f f.name with
          | Except.ok t => Except.ok (some t)
          | Except.error e => Except.error e
      | InputClassArg.strArg _ => Except.ok none
    match resolved with
    | Except.error e => ⟨Except.error e, mgr⟩
    | Except.ok none => ⟨Except.error RegErr.cannotDetermineInputModel, mgr⟩
    | Except.ok (some icls) =>
        ⟨Except.ok (),
         ⟨mgr.tool_name_list ++ [f.name],
          mgr.tool_map ++ [(f.name, ⟨f, icls⟩)]⟩⟩

/-- An incoming invocation request
(`ChatCompletionMessageFunctionToolCall`): the correlation id, the tool
name, and the argument payload; the payload is carried already parsed,
i.e. as the object `json.loads(tool_call.function.arguments)` yields. -/
structure ToolCall : Type where
  id : String
  name : String
  arguments : List (String × JValue)

/-- The invocation result (`ChatCompletionToolMessageParam`): the fixed
role marker, the echoed correlation id, and the serialized content
string. -/
structure ToolMessage : Type where
  role : String
  tool_call_id : String
  content : String
deriving DecidableEq

/-- Dispatch-time exceptions that `call_tool` lets propagate to its
caller: the explicit tool-not-found raise, a pydantic validation failure
from `InputClass(**arguments)`, and the `KeyError` a lookup in
`tool_map` would raise should the name list and the mapping ever
disagree (registration keeps them consistent, so the last is
unreachable on states built through the decorator). -/
inductive DispatchErr : Type where
  | toolNotFound (name : String) : DispatchErr
  | validationError (e : ValErr) : DispatchErr
  | mapKeyMissing (name : String) : DispatchErr
deriving DecidableEq

/-- The calling-convention decision of `call_tool`: unpack by default,
but pass the whole model when the function declares exactly one
parameter whose annotation equals the resolved input class
(a missing annotation is `inspect.Parameter.empty`, never equal to a
class). -/
def shouldUnpackF (tool : AgentTool) : Bool :=
  match tool.func.params with
  | [p] =>
      match p.ann with
      | some a => !(tyBeq a tool.InputClass)
      | none => true
  | _ => true

/-- The field specifications of a model class (`tool.InputClass` is
always model-shaped for tools stored by the decorator). -/
def modelFieldsOf : Ty → List (String × Ty × FieldMeta)
  | Ty.model _ fs => fs
  | Ty.prim _ => []

/-- The content value produced inside the try/except of `call_tool`: the
returned value on success, and on any exception from the function body
the string `"Error executing tool <name>: <str(e)>"`. -/
def execContent (toolName : String) (r : Except String JValue) : JValue :=
  match r with
  | Except.ok v => v
  | Except.error msg =>
      JValue.str ("Error executing tool " ++ toolName ++ ": " ++ msg)

/-- `call_tool`: look the tool up (raising when the name is absent from
the name list), validate the argument payload as the input model
(validation failures propagate), choose the calling convention, invoke
the function inside the error-capturing try/except, and wrap the
JSON-serialized content with the fixed role and the echoed correlation
id. -/
def callTool (mgr : AgentToolManager) (tc : ToolCall) :
    Except DispatchErr ToolMessage :=
  if tc.name ∈ mgr.tool_name_list then
    match lookupTool mgr tc.name with
    | none => Except.error (DispatchErr.mapKeyMissing tc.name)
    | some tool =>
        match validateFields (modelFieldsOf tool.InputClass) tc.arguments with
        | Except.error e => Except.error (DispatchErr.validationError e)
        | Except.ok vals =>
            let args : CallArgs :=
              if shouldUnpackF tool then CallArgs.unpacked vals
              else CallArgs.packed ⟨tool.InputClass, vals⟩
            let content : JValue := execContent tc.name (tool.func.body args)
            Except.ok ⟨"tool", tc.id, jsonDumps content⟩
  else Except.error (DispatchErr.toolNotFound tc.name)

/-- JSON-schema type tag of a primitive field type. -/
def primSchemaType : PTy → String
  | PTy.pInt => "integer"
  | PTy.pStr => "string"
  | PTy.pBool => "boolean"
  | PTy.pFloat => "number"

/-- Names of the required fields of a model, in field order (a field is
required exactly when it has no default). -/
def requiredNames (fs : List (String × Ty × FieldMeta)) : List JValue :=
  (fs.filter (fun f => f.2.2.default.isNone)).map (fun f => JValue.str f.1)

/-- Schema entries contributed by field metadata: the description and the
default, when present. -/
def metaEntries (m : FieldMeta) : List (String × JValue) :=
  (match m.descr with
   | some d => [("description", JValue.str d)]
   | none => []) ++
  (match m.default with
   | some d => [("default", d)]
   | none => [])

mutual

/-- `model_json_schema()` of the pydantic collaborator, modelled as the
JSON-schema-like object the wire format requires: primitives map to
their type tag, and a model maps to an object schema with its title,
fully expanded properties, and the required-field list. The real
pydantic output carries further metadata no claim depends on. -/
def tySchema : Ty → JValue
  | Ty.prim p => JValue.obj [("type", JValue.str (primSchemaType p))]
  | Ty.model n fs =>
      JValue.obj
        [("title", JValue.str n),
         ("type", JValue.str "object"),
         ("properties", JValue.obj (propsOf fs)),
         ("required", JValue.arr (requiredNames fs))]

/-- The `properties` members of a model schema: one entry per field, its
type schema extended with the metadata entries. -/
def propsOf : List (String × Ty × FieldMeta) → List (String × JValue)
  | [] => []
  | (n, t, m) :: rest =>
      (n, match tySchema t with
          | JValue.obj entries => JValue.obj (entries ++ metaEntries m)
          | v => v) :: propsOf rest

end

/-- The function part of an exported tool descriptor
(`FunctionDefinition`). -/
structure FunctionDef : Type where
  name : String
  description : String
  parameters : JValue

/-- An exported tool descriptor (`ChatCompletionFunctionToolParam`): the
fixed kind tag and the function definition. -/
structure ChatTool : Type where
  type : String
  function : FunctionDef

/-- `AgentTool.to_tool`: export a tool as its wire descriptor — the
function name, the trimmed docstring (or the generated default when the
function has none), and the input-model schema. -/
def toTool (t : AgentTool) : ChatTool :=
  ⟨"function",
   ⟨t.func.name,
    (match t.func.doc with
     | some d => d.trim
     | none => "调用函数" ++ t.func.name),
    tySchema t.InputClass⟩⟩

/-- `generate_tools`: export every registered tool, iterating the
mapping in insertion order. -/
def generateTools (mgr : AgentToolManager) : List ChatTool :=
  mgr.tool_map.map (fun kv => toTool kv.2)

/-- The dedup loop of `merge_tools`: walk the concatenated tool
descriptors, appending each whose function name has not been seen and
recording the name in the seen set (modelled as a list used only through
membership). -/
def mergeLoop : List ChatTool → List ChatTool → List String → List ChatTool
  | [], acc, _ => acc
  | t :: rest, acc, seen =>
      if t.function.name ∈ seen then mergeLoop rest acc seen
      else mergeLoop rest (acc ++ [t]) (seen ++ [t.function.name])

/-- `merge_tools`: flatten the exported tools of the given managers in
list order and drop every descriptor whose function name was already
emitted. Performs no input validation: an empty manager list simply
yields the empty tool list. -/
def mergeTools (mgrs : List AgentToolManager) : List ChatTool :=
  mergeLoop (mgrs.map generateTools).flatten [] []

/-! ### Concrete instances

Concrete tools mirroring the repository's own examples and tests, used
to instantiate the theorems below. -/

/-- The field specifications of the `AddInput` example model: two
required integer fields. -/
def addInputFields : List (String × Ty × FieldMeta) :=
  [("a", Ty.prim PTy.pInt, ⟨none, some "第一个数字"⟩),
   ("b", Ty.prim PTy.pInt, ⟨none, some "第二个数字"⟩)]

/-- The `AddInput` pydantic model of the repository's example tool. -/
def addInputTy : Ty := Ty.model "AddInput" addInputFields

/-- The example tool `add(args: AddInput)`: a single parameter annotated
with the input model, returning the sum of the two fields. -/
def addFunc : FuncDecl :=
  ⟨"add", some "计算两个数字的和",
   [⟨"args", some addInputTy, none⟩],
   fun args =>
     match args with
     | CallArgs.packed inst =>
         match lookupJ inst.values "a", lookupJ inst.values "b" with
         | some (JValue.num x), some (JValue.num y) =>
             Except.ok (JValue.num (x + y))
         | _, _ => Except.error "missing attribute"
     | CallArgs.unpacked _ => Except.error "unexpected keyword arguments"⟩

/-- A registry holding the `add` tool, built through the decorator. -/
def mgrAdd : AgentToolManager :=
  (agentToolDec emptyManager (InputClassArg.classArg "AddInput" addInputFields) addFunc).state

/-- A tool whose body always raises (`division by zero`), taking its
arguments unpacked. -/
def divFunc : FuncDecl :=
  ⟨"div_tool", none,
   [⟨"a", some (Ty.prim PTy.pInt), none⟩, ⟨"b", some (Ty.prim PTy.pInt), none⟩],
   fun _ => Except.error "division by zero"⟩

/-- A registry holding the raising tool, built through the decorator
with an auto-synthesized model. -/
def mgrDiv : AgentToolManager :=
  (agentToolDec emptyManager InputClassArg.noneArg divFunc).state

/-- A function whose sole parameter has no type annotation, mirroring the
`bad_example` function of the repository's demo script. -/
def badFunc : FuncDecl :=
  ⟨"bad_example", some "这是一个错误的示例",
   [⟨"no_type_annotation", none, none⟩],
   fun _ => Except.ok JValue.null⟩

/-- The `greet_user` example: one required and one defaulted string
parameter. -/
def greetFunc : FuncDecl :=
  ⟨"greet_user", some "向用户问候。",
   [⟨"name", some (Ty.prim PTy.pStr), none⟩,
    ⟨"greeting", some (Ty.prim PTy.pStr), some (JValue.str "你好")⟩],
   fun _ => Except.ok JValue.null⟩

/-! ### Helper functions and lemmas -/

/-- Whether every parameter of a function carries a type annotation. -/
def allAnnotated (ps : List Param) : Bool :=
  ps.all (fun p => p.ann.isSome)

/-- The field specification the synthesiser derives from one annotated
parameter: the parameter name, its annotated type, and — following the
two branches of the source — either the declared default (optional
field, no description) or no default plus the generated description
`"参数 <name>"` (required field). -/
def fieldOfParam (p : Param) : String × Ty × FieldMeta :=
  (p.name, p.ann.getD (Ty.prim PTy.pInt),
   match p.default with
   | some d => ⟨some d, none⟩
   | none => ⟨none, some ("参数 " ++ p.name)⟩)

/-- The name of the first parameter lacking a type annotation, in
declaration order. -/
def firstUnannotated : List Param → Option String
  | [] => none
  | p :: rest =>
      match p.ann with
      | none => some p.name
      | some _ => firstUnannotated rest

theorem buildFields_of_allAnnotated (ps : List Param)
    (h : allAnnotated ps = true) :
    buildFields ps = Except.ok (ps.map fieldOfParam) := by
  induction ps with
  | nil => rfl
  | cons p rest ih =>
      simp only [allAnnotated, List.all_cons, Bool.and_eq_true] at h
      obtain ⟨hp, hrest⟩ := h
      cases hann : p.ann with
      | none => rw [hann] at hp; simp at hp
      | some t =>
          simp only [buildFields, hann, ih hrest, List.map_cons]
          cases hd : p.default <;>
            simp [fieldOfParam, hann, hd]

theorem buildFields_of_firstUnannotated (ps : List Param) (p : String)
    (h : firstUnannotated ps = some p) :
    buildFields ps = Except.error (RegErr.missingAnnotation p) := by
  induction ps with
  | nil => simp [firstUnannotated] at h
  | cons q rest ih =>
      cases hann : q.ann with
      | none =>
          rw [firstUnannotated, hann] at h
          simp only [Option.some.injEq] at h
          subst h
          simp [buildFields, hann]
      | some t =>
          rw [firstUnannotated, hann] at h
          simp [buildFields, hann, ih h]

/-! ### Claim theorems -/

/-- C2: for every registry state and every function whose derived name is
already present in the registry, the `agent_tool` decoration fails with
the name-conflict error, and afterwards the name-to-tool mapping, the
ordered name list, and the tool count are exactly what they were before
the failed attempt. -/
theorem agent_tool_name_conflict_preserves_registry
    (mgr : AgentToolManager) (ic : InputClassArg) (f : FuncDecl)
    (hmem : f.name ∈ mgr.tool_name_list) :
    (agentToolDec mgr ic f).result = Except.error (RegErr.nameConflict f.name) ∧
    (agentToolDec mgr ic f).state.tool_map = mgr.tool_map ∧
    (agentToolDec mgr ic f).state.tool_name_list = mgr.tool_name_list ∧
    (agentToolDec mgr ic f).state.tool_map.length = mgr.tool_map.length := by
  unfold agentToolDec
  rw [if_pos hmem]
  exact ⟨rfl, rfl, rfl, rfl⟩

/-- Witness for C2: re-registering `add` on the registry that already
holds it is rejected with the conflict error and leaves the registry
intact. -/
theorem agent_tool_name_conflict_preserves_registry_witness :
    "add" ∈ mgrAdd.tool_name_list ∧
    (agentToolDec mgrAdd InputClassArg.noneArg addFunc).result =
      Except.error (RegErr.nameConflict "add") :=
  ⟨by decide,
   (agent_tool_name_conflict_preserves_registry mgrAdd InputClassArg.noneArg addFunc (by decide)).1⟩

/-- C10: for every explicit `InputClass` argument that is neither `None`
nor a pydantic model class — in the modelled universe, a string naming a
class, which the decorator docstring advertises — registration of a
fresh name fails with the cannot-determine-input-model `ValueError`, and
the registry is left unmodified. -/
theorem agent_tool_rejects_string_input_class
    (mgr : AgentToolManager) (s : String) (f : FuncDecl)
    (hfresh : f.name ∉ mgr.tool_name_list) :
    (agentToolDec mgr (InputClassArg.strArg s) f).result =
      Except.error RegErr.cannotDetermineInputModel ∧
    (agentToolDec mgr (InputClassArg.strArg s) f).state = mgr := by
  unfold agentToolDec
  rw [if_neg hfresh]
  exact ⟨rfl, rfl⟩

/-- Witness for C10: registering `add` with the string argument
`"AddInput"` on an empty registry is rejected and mutates nothing. -/
theorem agent_tool_rejects_string_input_class_witness :
    ("add" ∉ emptyManager.tool_name_list) ∧
    (agentToolDec emptyManager (InputClassArg.strArg "AddInput") addFunc).result =
      Except.error RegErr.cannotDetermineInputModel ∧
    (agentToolDec emptyManager (InputClassArg.strArg "AddInput") addFunc).state = emptyManager :=
  ⟨by decide, agent_tool_rejects_string_input_class emptyManager "AddInput" addFunc (by decide)⟩

/-- Counterexample to C8 as stated: for the demo function whose sole
parameter `no_type_annotation` lacks a type hint, registration does not
raise the inner missing-annotation error itself — the catch-all handler
of `_create_model_from_type_hints` re-raises it wrapped in the
model-synthesis error, so the surfaced error is the wrapper and is never
a bare missing-annotation error. -/
theorem missing_annotation_is_wrapped_counterexample :
    (agentToolDec emptyManager InputClassArg.noneArg badFunc).result =
      Except.error (RegErr.modelSynthesis
        (RegErr.missingAnnotation "no_type_annotation") "bad_example") ∧
    ∀ p : String,
      (agentToolDec emptyManager InputClassArg.noneArg badFunc).result ≠
        Except.error (RegErr.missingAnnotation p) := by
  refine ⟨rfl, ?_⟩
  intro p h
  rw [show (agentToolDec emptyManager InputClassArg.noneArg badFunc).result =
        Except.error (RegErr.modelSynthesis
          (RegErr.missingAnnotation "no_type_annotation") "bad_example") from rfl] at h
  exact RegErr.noConfusion (Except.error.inj h)

/-- C8 (amended): for every function registered without an explicit
model on a registry not already holding its name, if a parameter lacks a
type annotation then registration fails before the tool is stored with
the model-synthesis error wrapping the missing-annotation error — the
wrapped error identifies the offending parameter and the wrapper names
the function — and the registry is left unmodified. -/
theorem registration_wraps_missing_annotation_error
    (mgr : AgentToolManager) (f : FuncDecl) (p : String)
    (hfresh : f.name ∉ mgr.tool_name_list)
    (hfirst : firstUnannotated f.params = some p) :
    (agentToolDec mgr InputClassArg.noneArg f).result =
      Except.error (RegErr.modelSynthesis (RegErr.missingAnnotation p) f.name) ∧
    (agentToolDec mgr InputClassArg.noneArg f).state = mgr := by
  unfold agentToolDec
  rw [if_neg hfresh]
  simp [createModelFromTypeHints, buildFields_of_firstUnannotated f.params p hfirst]

/-- Witness for the amended C8: the demo function with its unannotated
parameter is rejected on the empty registry with the wrapped error and
the registry stays empty. -/
theorem registration_wraps_missing_annotation_error_witness :
    ("bad_example" ∉ emptyManager.tool_name_list) ∧
    firstUnannotated badFunc.params = some "no_type_annotation" ∧
    (agentToolDec emptyManager InputClassArg.noneArg badFunc).state = emptyManager :=
  ⟨by decide, rfl,
   (registration_wraps_missing_annotation_error emptyManager badFunc
     "no_type_annotation" (by decide) rfl).2⟩

/-- C6: for every function registered without an explicit model whose
parameters all carry type annotations, the synthesized model is named
after the tool with the `_Params` suffix and its ordered field set is
exactly the parameter list; a defaulted parameter becomes an optional
field carrying that default, and a parameter without a default becomes a
required field carrying the generated description. -/
theorem create_model_from_type_hints_shape (f : FuncDecl)
    (h : allAnnotated f.params = true) :
    createModelFromTypeHints f f.name =
      Except.ok (Ty.model (f.name ++ "_Params") (f.params.map fieldOfParam)) ∧
    ((f.params.map fieldOfParam).map (fun fd => fd.1) = f.params.map Param.name) ∧
    (∀ p ∈ f.params, ∀ t, p.ann = some t → (fieldOfParam p).2.1 = t) ∧
    (∀ p ∈ f.params, ∀ d, p.default = some d →
        (fieldOfParam p).2.2 = ⟨some d, none⟩) ∧
    (∀ p ∈ f.params, p.default = none →
        (fieldOfParam p).2.2 = ⟨none, some ("参数 " ++ p.name)⟩) := by
  refine ⟨?_, ?_, ?_, ?_, ?_⟩
  · simp only [createModelFromTypeHints, buildFields_of_allAnnotated f.params h]
  · simp [fieldOfParam]
  · intro p _ t ht; simp [fieldOfParam, ht]
  · intro p _ d hd; simp [fieldOfParam, hd]
  · intro p _ hd; simp [fieldOfParam, hd]

/-- Witness for C6: the synthesized model of the `greet_user` example has
the advertised name, a required `name` field with generated description,
and an optional `greeting` field defaulting to the declared string. -/
theorem create_model_from_type_hints_shape_witness :
    allAnnotated greetFunc.params = true ∧
    createModelFromTypeHints greetFunc greetFunc.name =
      Except.ok (Ty.model ("greet_user" ++ "_Params")
        [("name", Ty.prim PTy.pStr, ⟨none, some ("参数 " ++ "name")⟩),
         ("greeting", Ty.prim PTy.pStr, ⟨some (JValue.str "你好"), none⟩)]) :=
  ⟨rfl, (create_model_from_type_hints_shape greetFunc rfl).1⟩

/-- C1: for every registered tool and every invocation request naming it
whose argument payload validates, if the tool function body raises
during execution then `call_tool` does not raise: it returns a normal
invocation result whose content is the JSON-encoded string
`"Error executing tool <name>: <message>"`. -/
theorem call_tool_catches_body_exception
    (mgr : AgentToolManager) (tc : ToolCall) (tool : AgentTool)
    (vals : List (String × JValue)) (msg : String)
    (hmem : tc.name ∈ mgr.tool_name_list)
    (hlook : lookupTool mgr tc.name = some tool)
    (hval : validateFields (modelFieldsOf tool.InputClass) tc.arguments = Except.ok vals)
    (hbody : tool.func.body
        (if shouldUnpackF tool then CallArgs.unpacked vals
         else CallArgs.packed ⟨tool.InputClass, vals⟩) = Except.error msg) :
    callTool mgr tc = Except.ok
      ⟨"tool", tc.id,
       jsonDumps (JValue.str ("Error executing tool " ++ tc.name ++ ": " ++ msg))⟩ := by
  unfold callTool
  rw [if_pos hmem, hlook]
  simp only [hval, execContent, hbody]

/-- Witness for C1: dispatching the always-raising tool returns the
serialized error text as a normal result. -/
theorem call_tool_catches_body_exception_witness :
    callTool mgrDiv ⟨"call_9", "div_tool", [("a", JValue.num 1), ("b", JValue.num 0)]⟩ =
      Except.ok ⟨"tool", "call_9",
        jsonDumps (JValue.str ("Error executing tool " ++ "div_tool" ++ ": " ++ "division by zero"))⟩ :=
  call_tool_catches_body_exception mgrDiv
    ⟨"call_9", "div_tool", [("a", JValue.num 1), ("b", JValue.num 0)]⟩
    ⟨divFunc, Ty.model "div_tool_Params"
      [("a", Ty.prim PTy.pInt, ⟨none, some ("参数 " ++ "a")⟩),
       ("b", Ty.prim PTy.pInt, ⟨none, some ("参数 " ++ "b")⟩)]⟩
    [("a", JValue.num 1), ("b", JValue.num 0)] "division by zero"
    (by decide) rfl rfl rfl

/-- C3: for every registered tool and every invocation request naming it
whose argument payload fails structural validation, `call_tool` raises
that validation failure to the caller — it is never caught by the
tool-execution error handler and never turned into a success result. -/
theorem call_tool_propagates_validation_failure
    (mgr : AgentToolManager) (tc : ToolCall) (tool : AgentTool) (e : ValErr)
    (hmem : tc.name ∈ mgr.tool_name_list)
    (hlook : lookupTool mgr tc.name = some tool)
    (hval : validateFields (modelFieldsOf tool.InputClass) tc.arguments = Except.error e) :
    callTool mgr tc = Except.error (DispatchErr.validationError e) ∧
    ∀ m : ToolMessage, callTool mgr tc ≠ Except.ok m := by
  have hcall : callTool mgr tc = Except.error (DispatchErr.validationError e) := by
    unfold callTool
    rw [if_pos hmem, hlook]
    simp only [hval]
  exact ⟨hcall, fun m hm => by rw [hcall] at hm; exact Except.noConfusion hm⟩

/-- Witness for C3: dispatching `add` with the payload missing the
required field `b` fails with the validation error, not with a tool
message. -/
theorem call_tool_propagates_validation_failure_witness :
    callTool mgrAdd ⟨"call_123", "add", [("a", JValue.num 39)]⟩ =
      Except.error (DispatchErr.validationError (ValErr.missingField "b")) :=
  (call_tool_propagates_validation_failure mgrAdd
    ⟨"call_123", "add", [("a", JValue.num 39)]⟩
    ⟨addFunc, addInputTy⟩ (ValErr.missingField "b")
    (by decide) rfl rfl).1

/-- C7: for every registered tool and validating invocation request,
dispatch wraps the body invoked on the arguments the calling convention
selects; the packed convention (the whole validated model instance as
the single argument) is chosen exactly when the function declares one
parameter whose annotation equals the resolved input class, and the
unpacked convention (the validated fields as keyword arguments whose
names match the model fields) in every other case. -/
theorem call_tool_calling_convention
    (mgr : AgentToolManager) (tc : ToolCall) (tool : AgentTool)
    (vals : List (String × JValue))
    (hmem : tc.name ∈ mgr.tool_name_list)
    (hlook : lookupTool mgr tc.name = some tool)
    (hval : validateFields (modelFieldsOf tool.InputClass) tc.arguments = Except.ok vals) :
    callTool mgr tc = Except.ok
      ⟨"tool", tc.id,
       jsonDumps (execContent tc.name (tool.func.body
         (if shouldUnpackF tool then CallArgs.unpacked vals
          else CallArgs.packed ⟨tool.InputClass, vals⟩)))⟩ ∧
    (∀ p a, tool.func.params = [p] → p.ann = some a →
        tyBeq a tool.InputClass = true → shouldUnpackF tool = false) ∧
    ((¬ ∃ p a, tool.func.params = [p] ∧ p.ann = some a ∧
        tyBeq a tool.InputClass = true) → shouldUnpackF tool = true) := by
  refine ⟨?_, ?_, ?_⟩
  · unfold callTool
    rw [if_pos hmem, hlook]
    simp only [hval]
  · intro p a hps hann hbeq
    simp [shouldUnpackF, hps, hann, hbeq]
  · intro hno
    cases hps : tool.func.params with
    | nil => simp [shouldUnpackF, hps]
    | cons p rest =>
        cases rest with
        | cons q rest2 => simp [shouldUnpackF, hps]
        | nil =>
            cases hann : p.ann with
            | none => simp [shouldUnpackF, hps, hann]
            | some a =>
                cases hbeq : tyBeq a tool.InputClass with
                | true => exact absurd ⟨p, a, hps, hann, hbeq⟩ hno
                | false => simp [shouldUnpackF, hps, hann, hbeq]

/-- Witness for C7: `add` declares exactly one parameter annotated with
its input model, so dispatch passes the whole validated instance and the
body computes the sum. -/
theorem call_tool_calling_convention_witness :
    callTool mgrAdd ⟨"call_123", "add", [("a", JValue.num 39), ("b", JValue.num 186)]⟩ =
      Except.ok ⟨"tool", "call_123",
        jsonDumps (execContent "add" (addFunc.body
          (if shouldUnpackF ⟨addFunc, addInputTy⟩
           then CallArgs.unpacked [("a", JValue.num 39), ("b", JValue.num 186)]
           else CallArgs.packed ⟨addInputTy, [("a", JValue.num 39), ("b", JValue.num 186)]⟩)))⟩ :=
  (call_tool_calling_convention mgrAdd
    ⟨"call_123", "add", [("a", JValue.num 39), ("b", JValue.num 186)]⟩
    ⟨addFunc, addInputTy⟩ [("a", JValue.num 39), ("b", JValue.num 186)]
    (by decide) rfl rfl).1

/-- C9: every invocation result `call_tool` returns — whether the tool
succeeded or its body raised — has role exactly `"tool"`, echoes the
request correlation id, and carries content that is a JSON-encoded
string, never a raw structure. -/
theorem call_tool_result_wire_shape
    (mgr : AgentToolManager) (tc : ToolCall) (m : ToolMessage)
    (h : callTool mgr tc = Except.ok m) :
    m.role = "tool" ∧ m.tool_call_id = tc.id ∧ ∃ v : JValue, m.content = jsonDumps v := by
  unfold callTool at h
  by_cases hmem : tc.name ∈ mgr.tool_name_list
  · rw [if_pos hmem] at h
    cases hlook : lookupTool mgr tc.name with
    | none => rw [hlook] at h; exact Except.noConfusion h
    | some tool =>
        rw [hlook] at h
        cases hval : validateFields (modelFieldsOf tool.InputClass) tc.arguments with
        | error e =>
            simp only [hval] at h
            exact Except.noConfusion h
        | ok vals =>
            simp only [hval, Except.ok.injEq] at h
            subst h
            exact ⟨rfl, rfl, _, rfl⟩
  · rw [if_neg hmem] at h
    exact Except.noConfusion h

/-- Witness for C9: the successful `add` dispatch yields the fixed role,
the echoed id, and JSON-encoded scalar content. -/
theorem call_tool_result_wire_shape_witness :
    (⟨"tool", "call_123", "225"⟩ : ToolMessage).role = "tool" ∧
    (⟨"tool", "call_123", "225"⟩ : ToolMessage).tool_call_id = "call_123" ∧
    ∃ v : JValue, (⟨"tool", "call_123", "225"⟩ : ToolMessage).content = jsonDumps v :=
  call_tool_result_wire_shape mgrAdd
    ⟨"call_123", "add", [("a", JValue.num 39), ("b", JValue.num 186)]⟩
    ⟨"tool", "call_123", "225"⟩ rfl

theorem mergeLoop_find? (ts : List ChatTool) :
    ∀ (acc : List ChatTool) (n : String),
      (mergeLoop ts acc (acc.map (fun u => u.function.name))).find?
          (fun u => u.function.name == n) =
        (acc ++ ts).find? (fun u => u.function.name == n) := by
  induction ts with
  | nil => intro acc n; simp [mergeLoop]
  | cons t rest ih =>
      intro acc n
      by_cases hmem : t.function.name ∈ acc.map (fun u => u.function.name)
      · rw [show mergeLoop (t :: rest) acc (acc.map (fun u => u.function.name)) =
              mergeLoop rest acc (acc.map (fun u => u.function.name)) from by
            simp [mergeLoop, hmem]]
        rw [ih acc n, List.find?_append, List.find?_append]
        cases hacc : acc.find? (fun u => u.function.name == n) with
        | some u => simp
        | none =>
            by_cases hn : (t.function.name == n) = true
            · exfalso
              rw [List.find?_eq_none] at hacc
              obtain ⟨a, hamem, hname⟩ := List.mem_map.mp hmem
              exact hacc a hamem (by rw [hname]; exact hn)
            · simp only [Option.none_or]
              exact (List.find?_cons_of_neg rest (by simpa using hn)).symm
      · rw [show mergeLoop (t :: rest) acc (acc.map (fun u => u.function.name)) =
              mergeLoop rest (acc ++ [t])
                (acc.map (fun u => u.function.name) ++ [t.function.name]) from by
            simp [mergeLoop, hmem]]
        have hseen : acc.map (fun u => u.function.name) ++ [t.function.name] =
            (acc ++ [t]).map (fun u => u.function.name) := by simp
        rw [hseen, ih (acc ++ [t]) n]
        simp

theorem mergeLoop_names_nodup (ts : List ChatTool) :
    ∀ acc : List ChatTool, (acc.map (fun u => u.function.name)).Nodup →
      ((mergeLoop ts acc (acc.map (fun u => u.function.name))).map
          (fun u => u.function.name)).Nodup := by
  induction ts with
  | nil => intro acc h; simpa [mergeLoop] using h
  | cons t rest ih =>
      intro acc h
      by_cases hmem : t.function.name ∈ acc.map (fun u => u.function.name)
      · rw [show mergeLoop (t :: rest) acc (acc.map (fun u => u.function.name)) =
              mergeLoop rest acc (acc.map (fun u => u.function.name)) from by
            simp [mergeLoop, hmem]]
        exact ih acc h
      · rw [show mergeLoop (t :: rest) acc (acc.map (fun u => u.function.name)) =
              mergeLoop rest (acc ++ [t])
                (acc.map (fun u => u.function.name) ++ [t.function.name]) from by
            simp [mergeLoop, hmem]]
        have hseen : acc.map (fun u => u.function.name) ++ [t.function.name] =
            (acc ++ [t]).map (fun u => u.function.name) := by simp
        rw [hseen]
        apply ih
        rw [← hseen]
        simp [List.nodup_append, h, hmem]

theorem mergeLoop_subset (ts : List ChatTool) :
    ∀ acc seen, ∀ x ∈ mergeLoop ts acc seen, x ∈ acc ++ ts := by
  induction ts with
  | nil => intro acc seen x hx; simpa [mergeLoop] using hx
  | cons t rest ih =>
      intro acc seen x hx
      simp only [mergeLoop] at hx
      by_cases hmem : t.function.name ∈ seen
      · rw [if_pos hmem] at hx
        have hx2 := ih acc seen x hx
        simp only [List.mem_append, List.mem_cons] at hx2 ⊢
        tauto
      · rw [if_neg hmem] at hx
        have hx2 := ih (acc ++ [t]) (seen ++ [t.function.name]) x hx
        simp only [List.mem_append, List.mem_cons, List.mem_singleton] at hx2 ⊢
        tauto

/-- C5: for every list of managers, `merge_tools` retains, for every tool
name occurring among the exported tools of the inputs, exactly the first
descriptor (in input-list order, then registration order) carrying that
name; every later descriptor with an already-seen name is dropped
without error (each name occurs at most once in the output, and the
output only contains input descriptors). The merge reads its inputs and
builds a fresh list, mutating nothing. -/
theorem merge_tools_first_definition_wins (mgrs : List AgentToolManager) :
    (∀ n : String,
      (mergeTools mgrs).find? (fun u => u.function.name == n) =
        ((mgrs.map generateTools).flatten).find? (fun u => u.function.name == n)) ∧
    ((mergeTools mgrs).map (fun u => u.function.name)).Nodup ∧
    (∀ t ∈ mergeTools mgrs, t ∈ (mgrs.map generateTools).flatten) := by
  refine ⟨?_, ?_, ?_⟩
  · intro n
    have h := mergeLoop_find? ((mgrs.map generateTools).flatten) [] n
    simpa [mergeTools] using h
  · have h := mergeLoop_names_nodup ((mgrs.map generateTools).flatten) [] (by simp)
    simpa [mergeTools] using h
  · intro t ht
    have h := mergeLoop_subset ((mgrs.map generateTools).flatten) [] [] t ht
    simpa using h

/-- C4 (code evaluation): `merge_tools` applied to the empty manager list
does not fail — it returns the empty tool list, performing neither the
empty-input nor the member-type check that the specification and the
repository's own tests (via the absent `merge_managers`) require. -/
theorem merge_tools_empty_list_returns_empty : mergeTools [] = [] := rfl
